import Mathlib

/-!
# Verification of the card-matching game core

A shallow embedding of the reservoir/board engine of the `itsamatch`
repository, together with proofs about its specification.

Sources embedded here:
* `js/game-model.js` (GameModel v5.0): finite state machine, card model,
  match checker, scoring, refill (`getReplacements`), difficulty selector;
* the v4 GameModel (same class, earlier revision): `initializeCards`
  including the retry-based match-guarantee loop;
* `js/game-engine.js` (monolithic engine): combo scoring, the mismatch
  branch of `checkMatch`, one-to-many match handling, pair-count theme
  validation;
* `js/game-controller.js`: `validateTheme`.

JavaScript `Math.random`-driven shuffles are modelled as explicit function
parameters; a run of the program corresponds to a choice of shuffle
functions whose outputs are permutations of their inputs.  Card identity
strings are modelled injectively (naturals, or the `DomKey` type for the
engine's composite DOM keys).  DOM-only effects (CSS classes, timers,
logging) have no data content and are dropped; array mutations scheduled
on timers are applied in their scheduled order.
-/

set_option autoImplicit false

/-- Decidable equality of `Except` values, used to evaluate the embedded
fallible operations on concrete inputs. -/
instance {ε α : Type} [DecidableEq ε] [DecidableEq α] :
    DecidableEq (Except ε α) := fun a b =>
  match a, b with
  | .error x, .error y =>
    if h : x = y then isTrue (by rw [h])
    else isFalse (by intro hc; cases hc; exact h rfl)
  | .ok x, .ok y =>
    if h : x = y then isTrue (by rw [h])
    else isFalse (by intro hc; cases hc; exact h rfl)
  | .error _, .ok _ => isFalse (by intro hc; cases hc)
  | .ok _, .error _ => isFalse (by intro hc; cases hc)

namespace ItsAMatch

/-- Which column a card belongs to (`card.side` in the source). -/
inductive Side
  | left
  | right
  deriving DecidableEq, Repr

/-- Card lifecycle state (`card.state`): in the reservoir, on the board,
or already matched. -/
inductive CState
  | pool
  | active
  | matched
  deriving DecidableEq, Repr

/-- A card of the GameModel.  JS ids are unique strings such as
`card_left_<pairId>_<index>`; we model them injectively as naturals. -/
structure Card where
  id : Nat
  pairId : Nat
  side : Side
  state : CState
  description : Option String := none
  deriving DecidableEq, Repr

/-! ## Game session state machine (`GameModel.setState`) -/

/-- The FSM states of `GameModel.state`. -/
inductive GState
  | IDLE
  | LOADING
  | READY
  | PLAYING
  | CHECKING
  | FINISHED
  | ERROR
  deriving DecidableEq, Repr, Fintype

/-- The `validTransitions` table of `GameModel.setState`. -/
def validTransitions : GState → List GState
  | .IDLE => [.LOADING, .ERROR]
  | .LOADING => [.READY, .ERROR]
  | .READY => [.PLAYING, .ERROR]
  | .PLAYING => [.CHECKING, .FINISHED, .ERROR]
  | .CHECKING => [.PLAYING, .FINISHED, .ERROR]
  | .FINISHED => [.IDLE]
  | .ERROR => [.IDLE, .LOADING]

/-- `GameModel.setState`: returns whether the transition was accepted
together with the state afterwards (unchanged on rejection). -/
def setState (s newState : GState) : Bool × GState :=
  if newState ∈ validTransitions s then (true, newState) else (false, s)

/-- The transition table exactly as the specification lists it
(IDLE→{LOADING,ERROR}; …; ERROR→{IDLE,LOADING}), used to compare
`setState` against the spec's words. -/
def specTransitionTable : List (GState × GState) :=
  [(.IDLE, .LOADING), (.IDLE, .ERROR),
   (.LOADING, .READY), (.LOADING, .ERROR),
   (.READY, .PLAYING), (.READY, .ERROR),
   (.PLAYING, .CHECKING), (.PLAYING, .FINISHED), (.PLAYING, .ERROR),
   (.CHECKING, .PLAYING), (.CHECKING, .FINISHED), (.CHECKING, .ERROR),
   (.FINISHED, .IDLE),
   (.ERROR, .IDLE), (.ERROR, .LOADING)]

/-! ## GameModel state and statistics -/

/-- The data fields of `GameModel` (v5.0) used by the embedded methods.
`cards` is the master list (`this.cards`); the board and the reservoir
hold cards per side.  In JS the board/pool arrays alias the objects of
`cards`; here each list carries card values, and every embedded method
updates exactly the lists the source method writes to. -/
structure GM where
  cards : List Card
  boardLeft : List Card
  boardRight : List Card
  poolLeft : List Card
  poolRight : List Card
  score : Int
  correctAnswers : Nat
  incorrectAnswers : Nat
  combo : Nat
  maxCombo : Nat
  matchedPairsCount : Nat
  totalPairs : Nat
  deriving DecidableEq, Repr

/-- `this.SCORE_CORRECT`. -/
def SCORE_CORRECT : Int := 50

/-- `this.SCORE_INCORRECT`. -/
def SCORE_INCORRECT : Int := -10

/-- `this.COMBO_BONUS`. -/
def COMBO_BONUS : Nat := 10

/-- `this.CARDS_ON_BOARD`. -/
def CARDS_ON_BOARD : Nat := 6

/-- `this.cards.find(c => c.id === cardId)`. -/
def findCard (cards : List Card) (cid : Nat) : Option Card :=
  cards.find? (fun c => c.id == cid)

/-! ## Match checker (`GameModel.checkMatch`) -/

/-- The distinct rejection codes of `checkMatch`. -/
inductive MatchError
  | NOT_FOUND
  | NOT_ACTIVE
  | SAME_SIDE
  deriving DecidableEq, Repr

/-- The success payload of `checkMatch`
(`{success: true, isMatch, card1, card2, pairId, description}`). -/
structure MatchOk where
  isMatch : Bool
  card1 : Card
  card2 : Card
  pairId : Nat
  description : Option String
  deriving DecidableEq, Repr

/-- `GameModel.checkMatch(cardId1, cardId2)`: find both cards in the
model, validate, and report whether the pair identities coincide.  The
method body only reads `this.cards`. -/
def checkMatch (m : GM) (cardId1 cardId2 : Nat) : Except MatchError MatchOk :=
  match findCard m.cards cardId1, findCard m.cards cardId2 with
  | none, _ => Except.error MatchError.NOT_FOUND
  | some _, none => Except.error MatchError.NOT_FOUND
  | some card1, some card2 =>
    if card1.state ≠ CState.active ∨ card2.state ≠ CState.active then
      Except.error MatchError.NOT_ACTIVE
    else if card1.side = card2.side then
      Except.error MatchError.SAME_SIDE
    else
      Except.ok
        { isMatch := card1.pairId == card2.pairId
          card1 := card1
          card2 := card2
          pairId := card1.pairId
          description :=
            if card2.side = Side.right then card2.description else card1.description }

/-- `checkMatch` as a state transformer: the JS method contains no
assignment, so the model state comes back unchanged. -/
def checkMatchRun (m : GM) (cardId1 cardId2 : Nat) :
    Except MatchError MatchOk × GM :=
  (checkMatch m cardId1 cardId2, m)

/-! ## Outcome application (`applyMatch` / `applyMismatch`) -/

/-- Replace the first card with the given id (JS mutates the object that
`find` returned; ids are unique, so only the first hit changes). -/
def updateFirstCard (cards : List Card) (cid : Nat) (f : Card → Card) : List Card :=
  match cards with
  | [] => []
  | c :: rest =>
    if c.id = cid then f c :: rest else c :: updateFirstCard rest cid f

/-- The combo bonus of `applyMatch`:
`this.combo >= 5 ? (this.combo - 4) * this.COMBO_BONUS : 0`. -/
def comboBonus (combo : Nat) : Nat :=
  if 5 ≤ combo then (combo - 4) * COMBO_BONUS else 0

/-- `GameModel.applyMatch(cardId1, cardId2)`: mark both cards matched,
bump the counters and the combo, and add base score plus combo bonus.
Returns `false` (state unchanged) when either card is missing. -/
def applyMatch (m : GM) (cardId1 cardId2 : Nat) : Bool × GM :=
  match findCard m.cards cardId1, findCard m.cards cardId2 with
  | some _, some _ =>
    let cards' :=
      updateFirstCard (updateFirstCard m.cards cardId1 (fun c => { c with state := CState.matched }))
        cardId2 (fun c => { c with state := CState.matched })
    let combo' := m.combo + 1
    (true,
      { m with
          cards := cards'
          correctAnswers := m.correctAnswers + 1
          matchedPairsCount := m.matchedPairsCount + 1
          combo := combo'
          maxCombo := Nat.max m.maxCombo combo'
          score := m.score + SCORE_CORRECT + (comboBonus combo' : Nat) })
  | _, _ => (false, m)

/-- `GameModel.applyMismatch()`: one more incorrect answer, score penalty
floored at zero, combo reset.  No card is touched. -/
def applyMismatch (m : GM) : GM :=
  { m with
      incorrectAnswers := m.incorrectAnswers + 1
      score := max 0 (m.score + SCORE_INCORRECT)
      combo := 0 }

/-! ## Results (`GameModel.getResults`) -/

/-- The result record of `getResults` (the wall-clock `duration` field is
real time and is not modelled). -/
structure GameResults where
  score : Int
  correct : Nat
  incorrect : Nat
  accuracy : Nat
  maxCombo : Nat
  completed : Bool
  deriving DecidableEq, Repr

/-- The accuracy computation of `getResults`:
`correct > 0 ? Math.round(correct / (correct+incorrect) * 100) : 100`.
For nonnegative x, `Math.round x = ⌊x + 1/2⌋`, so the rounded percentage
is `⌊(200c + (c+i)) / (2(c+i))⌋` in exact arithmetic. -/
def accuracyOf (correct incorrect : Nat) : Nat :=
  if 0 < correct then
    (200 * correct + (correct + incorrect)) / (2 * (correct + incorrect))
  else 100

/-- `GameModel.isGameFinished()`. -/
def isGameFinished (m : GM) : Bool :=
  m.totalPairs ≤ m.matchedPairsCount

/-- `GameModel.getResults()`. -/
def getResults (m : GM) : GameResults :=
  { score := m.score
    correct := m.correctAnswers
    incorrect := m.incorrectAnswers
    accuracy := accuracyOf m.correctAnswers m.incorrectAnswers
    maxCombo := m.maxCombo
    completed := isGameFinished m }

/-! ## Board utilities (`checkAnyMatchExists`, `findMatchingCard`) -/

/-- `GameModel.checkAnyMatchExists(leftCards, rightCards)`: nested loops
returning on the first shared pair identity. -/
def checkAnyMatchExists (leftCards rightCards : List Card) : Bool :=
  leftCards.any (fun l => rightCards.any (fun r => l.pairId == r.pairId))

/-- `GameModel.findMatchingCard(poolCards, boardCards)`: the first pool
card compatible with some board card, if any. -/
def findMatchingCard (poolCards boardCards : List Card) : Option Card :=
  poolCards.find? (fun p => boardCards.any (fun b => p.pairId == b.pairId))

/-! ## Match-guarantee initializer (retry strategy)

`ensureMatchOnBoard` (v5.0) and the inline loop of the v4
`initializeCards` both reshuffle the right reservoir until the two
leading `CARDS_ON_BOARD`-slices share a pair id, giving up after 100
attempts.  The loop checks the initial order and the orders after
shuffles 1..99; a 100th shuffle, if reached, is applied unchecked.
`shuffleAt k` is the outcome of the `k`-th reshuffle. -/

/-- The body of the retry loop, with `fuel` remaining attempts. -/
def ensureMatchGo (shuffleAt : Nat → List Card → List Card)
    (leftSlice : List Card) : Nat → Nat → List Card → List Card
  | 0, _, poolRight => poolRight
  | fuel + 1, attempts, poolRight =>
    if checkAnyMatchExists leftSlice (poolRight.take CARDS_ON_BOARD) then poolRight
    else ensureMatchGo shuffleAt leftSlice fuel (attempts + 1) (shuffleAt attempts poolRight)

/-- `GameModel.ensureMatchOnBoard()`: final value of
`this.poolCards.right` after the bounded retry loop. -/
def ensureMatchOnBoard (shuffleAt : Nat → List Card → List Card)
    (poolLeft poolRight : List Card) : List Card :=
  ensureMatchGo shuffleAt (poolLeft.take CARDS_ON_BOARD) 100 0 poolRight

/-! ## Refill strategy (`GameModel.getReplacements`) -/

/-- `findIndex` + assignment at that index: replace the first card whose
id is `oldId`; if no card has that id, the list is unchanged
(JS: `findIndex` returns `-1` and no slot is written). -/
def replaceFirstById (cards : List Card) (oldId : Nat) (newCard : Card) : List Card :=
  match cards with
  | [] => []
  | c :: rest =>
    if c.id = oldId then newCard :: rest else c :: replaceFirstById rest oldId newCard

/-- The left-side block of `getReplacements`: draw a replacement from the
left reservoir (activating it), or shrink the left board when the
reservoir is empty. -/
def leftStep (m : GM) (oldId : Nat) : GM :=
  match m.poolLeft with
  | [] => { m with boardLeft := m.boardLeft.filter (fun c => c.id != oldId) }
  | newCard :: rest =>
    let newCard := { newCard with state := CState.active }
    { m with
        poolLeft := rest
        boardLeft := replaceFirstById m.boardLeft oldId newCard }

/-- The right-side block of `getReplacements`: if the board minus the
vacated slot still has a cross-side match, draw the next reservoir card;
otherwise look for a reservoir card compatible with the left board,
falling back to the next card when none exists.  With an empty reservoir
the right board shrinks. -/
def rightStep (m : GM) (oldId : Nat) : GM :=
  match m.poolRight with
  | [] => { m with boardRight := m.boardRight.filter (fun c => c.id != oldId) }
  | first :: rest =>
    let tempBoardRight := m.boardRight.filter (fun c => c.id != oldId)
    let hasMatchWithoutNew := checkAnyMatchExists m.boardLeft tempBoardRight
    let pick : Card × List Card :=
      if hasMatchWithoutNew then (first, rest)
      else
        match findMatchingCard m.poolRight m.boardLeft with
        | some found => (found, m.poolRight.filter (fun c => c.id != found.id))
        | none => (first, rest)
    let newCard := { pick.1 with state := CState.active }
    { m with
        poolRight := pick.2
        boardRight := replaceFirstById m.boardRight oldId newCard }

/-- `GameModel.getReplacements(cardId1, cardId2)`: run the left block and
then the right block for the sides of the two consumed cards.  (The
replacement descriptors it returns, and its diagnostic logging — including
the always-false `matches === 0` comparison of an array against `0` — have
no effect on the model state and are not represented.) -/
def getReplacements (m : GM) (cardId1 cardId2 : Nat) : GM :=
  match findCard m.cards cardId1, findCard m.cards cardId2 with
  | some card1, some card2 =>
    let m1 :=
      if card1.side = Side.left ∨ card2.side = Side.left then
        leftStep m (if card1.side = Side.left then cardId1 else cardId2)
      else m
    if card1.side = Side.right ∨ card2.side = Side.right then
      rightStep m1 (if card1.side = Side.right then cardId1 else cardId2)
    else m1
  | _, _ => m

/-! ## Difficulty selector (`GameModel.selectCardsForGame`) -/

/-- One entry of a `rights` array: a right-hand variant with its
difficulty tier (1, 2 or 3). -/
structure RightVariant where
  text : String
  difficulty : Nat
  description : Option String := none
  deriving DecidableEq, Repr

/-- A catalog pair in the one-to-many shape
`{id, left, rights: [...]}`.  Ids are modelled as naturals; the JS
truthiness test `!pair.id` treats `0` as missing. -/
structure ThemePair where
  id : Nat
  left : String
  rights : List RightVariant
  deriving DecidableEq, Repr

/-- A requested distribution `{easy, medium, hard}`. -/
structure Dist where
  easy : Nat
  medium : Nat
  hard : Nat
  deriving DecidableEq, Repr

/-- A (pair, right-variant) candidate as pushed into the selector's
difficulty pools. -/
structure SelectedPair where
  leftText : String
  leftId : Nat
  rightText : String
  rightDescription : Option String
  rightDifficulty : Nat
  pairId : Nat
  deriving DecidableEq, Repr

/-- The bucket `rightCardPools[d]`: every `(pair, right)` combination of
the catalog whose variant difficulty is `d`, in catalog order.  (In JS a
difficulty outside {1,2,3} crashes the push; the embedding is used on
catalogs whose difficulties were validated upstream.) -/
def rightCardPool (pairs : List ThemePair) (d : Nat) : List SelectedPair :=
  (pairs.flatMap (fun p => p.rights.map (fun r =>
    { leftText := p.left
      leftId := p.id
      rightText := r.text
      rightDescription := r.description
      rightDifficulty := r.difficulty
      pairId := p.id : SelectedPair }))).filter (fun s => s.rightDifficulty == d)

/-- One tier of the selector's picking loop: walk the (already captured)
bucket, accepting at most `count` candidates whose left value has not been
claimed, and threading the claimed set.  The in-loop purge of the current
bucket is unobservable because the loop iterates the array captured before
the purge; duplicates inside the tier are stopped by the claimed set. -/
def pickFromPool : List SelectedPair → Nat → List Nat → List SelectedPair × List Nat
  | [], _, used => ([], used)
  | c :: rest, count, used =>
    if count = 0 then ([], used)
    else if c.pairId ∈ used then pickFromPool rest count used
    else
      let r := pickFromPool rest (count - 1) (c.pairId :: used)
      (c :: r.1, r.2)

/-- The selector core over the three shuffled buckets, in the fixed
priority order hard → medium → easy.  Accepting a candidate purges every
other right-variant of the same left value from the buckets still to be
processed. -/
def selectFromPools (pool3 pool2 pool1 : List SelectedPair) (dist : Dist) :
    List SelectedPair :=
  let r3 := pickFromPool pool3 dist.hard []
  let r2 := pickFromPool (pool2.filter (fun c => !(r3.2.contains c.pairId))) dist.medium r3.2
  let r1 := pickFromPool (pool1.filter (fun c => !(r2.2.contains c.pairId))) dist.easy r2.2
  r3.1 ++ r2.1 ++ r1.1

/-- The `Math.random`-driven shuffles of the model, passed explicitly: the
three selector buckets, the two reservoirs, and the retry loop of
`ensureMatchOnBoard` (indexed by attempt). -/
structure Shuffles where
  shufPool1 : List SelectedPair → List SelectedPair
  shufPool2 : List SelectedPair → List SelectedPair
  shufPool3 : List SelectedPair → List SelectedPair
  shufLeft : List Card → List Card
  shufRight : List Card → List Card
  shufEnsure : Nat → List Card → List Card

/-- `GameModel.selectCardsForGame(pairs, distribution)`. -/
def selectCardsForGame (sh : Shuffles) (pairs : List ThemePair) (dist : Dist) :
    List SelectedPair :=
  selectFromPools (sh.shufPool3 (rightCardPool pairs 3))
    (sh.shufPool2 (rightCardPool pairs 2))
    (sh.shufPool1 (rightCardPool pairs 1)) dist

/-! ## Initializers -/

/-- `c.state = 'active'`. -/
def activate (c : Card) : Card := { c with state := CState.active }

/-- The board/pool fields produced by an initializer. -/
structure BoardSetup where
  boardL : List Card
  boardR : List Card
  poolL : List Card
  poolR : List Card
  deriving DecidableEq, Repr

/-- Steps 6 of `initializeCards`: splice the first `CARDS_ON_BOARD` cards
of each reservoir onto the board and mark them active. -/
def layoutBoard (poolLeft poolRight : List Card) : BoardSetup :=
  { boardL := (poolLeft.take CARDS_ON_BOARD).map activate
    boardR := (poolRight.take CARDS_ON_BOARD).map activate
    poolL := poolLeft.drop CARDS_ON_BOARD
    poolR := poolRight.drop CARDS_ON_BOARD }

/-- Card construction of the v5 `initializeCards`: one left and one right
card per selected pair, both carrying the pair id.  The JS id strings
`card_<side>_<pairId>_<index>` are encoded injectively as
`2*index + (side = right)`. -/
def buildCardsGo : Nat → List SelectedPair → List Card
  | _, [] => []
  | i, p :: ps =>
    { id := 2 * i, pairId := p.pairId, side := Side.left,
      state := CState.pool, description := none } ::
    { id := 2 * i + 1, pairId := p.pairId, side := Side.right,
      state := CState.pool, description := p.rightDescription } ::
    buildCardsGo (i + 1) ps

/-- `selectedPairs.forEach(...)` of the v5 `initializeCards`. -/
def buildCards (selected : List SelectedPair) : List Card :=
  buildCardsGo 0 selected

/-- A thrown JS error of the model initializer. -/
inductive JsErr
  | selectionEmpty
  | referenceErrorMatches
  deriving DecidableEq, Repr

/-- `GameModel.initializeCards(pairs, distribution)` (v5.0).  The method
performs selection, card construction, reservoir shuffling, the match
guarantee and the board layout, and then evaluates the never-declared
identifier `matches` (lines 204-210), so after a successful setup it
always throws a `ReferenceError`.  The first component is the state of
`this` when the method exits (JS field mutations persist across the
throw); the second is the outcome. -/
def initializeCards (sh : Shuffles) (m : GM) (pairs : List ThemePair)
    (dist : Dist) : GM × Except JsErr Unit :=
  let selected := selectCardsForGame sh pairs dist
  if selected.length = 0 then
    (m, Except.error JsErr.selectionEmpty)
  else
    let cards := buildCards selected
    let poolLeft := sh.shufLeft (cards.filter (fun c => c.side == Side.left))
    let poolRight0 := sh.shufRight (cards.filter (fun c => c.side == Side.right))
    let poolRight := ensureMatchOnBoard sh.shufEnsure poolLeft poolRight0
    let b := layoutBoard poolLeft poolRight
    ({ m with
        cards := cards
        totalPairs := selected.length
        boardLeft := b.boardL
        boardRight := b.boardR
        poolLeft := b.poolL
        poolRight := b.poolR },
     Except.error JsErr.referenceErrorMatches)

/-- A catalog pair in the simple one-to-one shape used by the v4 model. -/
structure SimplePair where
  id : Nat
  left : String
  right : String
  description : Option String := none
  deriving DecidableEq, Repr

/-- Card construction of the v4 `initializeCards`: ids
`card_<side>_<index>` encoded as `2*index + (side = right)`. -/
def buildCardsV4Go : Nat → List SimplePair → List Card
  | _, [] => []
  | i, p :: ps =>
    { id := 2 * i, pairId := p.id, side := Side.left,
      state := CState.pool, description := p.description } ::
    { id := 2 * i + 1, pairId := p.id, side := Side.right,
      state := CState.pool, description := p.description } ::
    buildCardsV4Go (i + 1) ps

/-- `pairs.forEach(...)` of the v4 `initializeCards`. -/
def buildCardsV4 (pairs : List SimplePair) : List Card :=
  buildCardsV4Go 0 pairs

/-- The v4 `GameModel.initializeCards(pairs)`: build the cards, shuffle
both reservoirs, run the bounded match-guarantee retry loop on the right
reservoir, and lay out the board.  This revision completes normally. -/
def initializeCardsV4 (shufLeft shufRight : List Card → List Card)
    (shufEnsure : Nat → List Card → List Card) (pairs : List SimplePair) :
    BoardSetup :=
  let cards := buildCardsV4 pairs
  let poolLeft := shufLeft (cards.filter (fun c => c.side == Side.left))
  let poolRight0 := shufRight (cards.filter (fun c => c.side == Side.right))
  let poolRight := ensureMatchOnBoard shufEnsure poolLeft poolRight0
  layoutBoard poolLeft poolRight

/-- The match-guarantee invariant: some left and some right card on the
board share a pair id and both are in state `active`. -/
def hasActiveMatch (boardL boardR : List Card) : Prop :=
  ∃ l ∈ boardL, ∃ r ∈ boardR,
    l.pairId = r.pairId ∧ l.state = CState.active ∧ r.state = CState.active

instance (boardL boardR : List Card) : Decidable (hasActiveMatch boardL boardR) := by
  unfold hasActiveMatch; infer_instance

/-! ## Theme/catalog validation

Two validators live in the repository: the pair-count validation block of
`GameEngine.loadTheme` (game-engine.js) and
`GameController.validateTheme` (game-controller.js).  Error payloads are
modelled as codes; the JS messages are descriptive strings. -/

/-- The distinct validation failures. -/
inductive ThemeError
  | noPairs
  | tooFewPairs
  | notEnoughPairsController
  | noTitle
  | pairNoId
  | pairNoLeft
  | pairEmptyRights
  | rightNoText
  | rightBadDifficulty
  deriving DecidableEq, Repr

/-- A theme document (title plus pair list).  The JS truthiness checks
read missing strings as `''` and a missing id as `0`. -/
structure ThemeDoc where
  title : String
  pairs : List ThemePair
  deriving DecidableEq, Repr

/-- The pair-count validation of `GameEngine.loadTheme` (lines
1527-1545): empty list and fewer than 3 pairs are fatal; fewer than 6
only logs a warning. -/
def enginePairCountCheck (pairs : List ThemePair) : Except ThemeError Unit :=
  if pairs.length = 0 then Except.error ThemeError.noPairs
  else if pairs.length < 3 then Except.error ThemeError.tooFewPairs
  else Except.ok ()

/-- The per-entry check of `GameController.validateTheme` on a `rights`
element: a text and a difficulty in {1,2,3} (the JS `!right.difficulty`
also rejects 0, which the membership test subsumes). -/
def validateRightEntry (r : RightVariant) : Except ThemeError Unit :=
  if r.text = "" then Except.error ThemeError.rightNoText
  else if r.difficulty = 1 ∨ r.difficulty = 2 ∨ r.difficulty = 3 then Except.ok ()
  else Except.error ThemeError.rightBadDifficulty

/-- `rights.forEach(...)`: first failure wins. -/
def validateRightEntries : List RightVariant → Except ThemeError Unit
  | [] => Except.ok ()
  | r :: rs =>
    match validateRightEntry r with
    | Except.ok _ => validateRightEntries rs
    | Except.error e => Except.error e

/-- The per-pair check of `GameController.validateTheme`: id, left value,
and a non-empty `rights` array of valid entries. -/
def validatePairEntry (p : ThemePair) : Except ThemeError Unit :=
  if p.id = 0 then Except.error ThemeError.pairNoId
  else if p.left = "" then Except.error ThemeError.pairNoLeft
  else if p.rights.length = 0 then Except.error ThemeError.pairEmptyRights
  else validateRightEntries p.rights

/-- `themeData.pairs.forEach(...)`: first failure wins. -/
def validatePairEntries : List ThemePair → Except ThemeError Unit
  | [] => Except.ok ()
  | p :: ps =>
    match validatePairEntry p with
    | Except.ok _ => validatePairEntries ps
    | Except.error e => Except.error e

/-- `GameController.validateTheme(themeData)`: unlike the engine check it
rejects every catalog with fewer than 6 pairs. -/
def validateThemeController (doc : ThemeDoc) : Except ThemeError Unit :=
  if doc.pairs.length = 0 then Except.error ThemeError.noPairs
  else if doc.pairs.length < 6 then Except.error ThemeError.notEnoughPairsController
  else if doc.title = "" then Except.error ThemeError.noTitle
  else validatePairEntries doc.pairs

/-! ## Engine scoring (`game-engine.js`)

The monolithic engine keeps its own statistics.  `addScore` adds,
`subtractScore` floors at zero, and `increaseCombo` pays
`calculateComboBonus` from a streak of 3 on. -/

/-- `GameEngine.calculateComboBonus()`. -/
def calculateComboBonus (combo : Nat) : Nat :=
  if combo = 3 then 10
  else if combo = 4 then 15
  else if combo = 5 then 20
  else 25

/-- `GameEngine.increaseCombo()` acting on (score, combo, maxCombo). -/
def engineIncreaseCombo (score : Int) (combo maxCombo : Nat) :
    Int × Nat × Nat :=
  let combo' := combo + 1
  let maxCombo' := if maxCombo < combo' then combo' else maxCombo
  if 3 ≤ combo' then (score + (calculateComboBonus combo' : Nat), combo', maxCombo')
  else (score, combo', maxCombo')

/-- The engine's correct-match scoring for a one-to-one theme:
`checkMatch` adds 50, then `handleOneToOneMatch` increments
`correctAnswers`, adds 50 again and runs `increaseCombo`.  Returns
(score, combo, maxCombo, correctAnswers). -/
def engineCorrectOneToOne (score : Int) (combo maxCombo correctAnswers : Nat) :
    Int × Nat × Nat × Nat :=
  let s1 := score + 50
  let s2 := s1 + 50
  let r := engineIncreaseCombo s2 combo maxCombo
  (r.1, r.2.1, r.2.2, correctAnswers + 1)

/-- The mismatch branch of `GameEngine.checkMatch` (lines 2195-2202):
`incorrectAnswers++`, `subtractScore(10)` (floored at 0 via `Math.max`),
`resetCombo()`.  Returns (score, incorrectAnswers, combo). -/
def engineMismatchStep (score : Int) (incorrectAnswers : Nat) :
    Int × Nat × Nat :=
  (max 0 (score - 10), incorrectAnswers + 1, 0)

/-! ## Engine one-to-many handling (`handleOneToManyMatch`)

DOM card keys in the engine are the strings
`"<side>-<pairId>"` (simple pairs), `"<side>-<pairId>-<index>"`
(one-to-many right cards, whose `id` is the string
`"<pairId>-<index>"`) and the bare `"<pairId>-<index>"`.  These three
shapes never collide, so they are modelled by the `DomKey` type, whose
decidable equality coincides with string equality of the encoded keys. -/

/-- The injective model of the engine's card-key strings. -/
inductive DomKey
  | simple (side : Side) (pid : Nat)
  | composite (side : Side) (pid idx : Nat)
  | raw (pid idx : Nat)
  deriving DecidableEq, Repr

/-- A left card datum of the engine in one-to-many mode
(`{id, content, side, pairId, totalMatches, currentMatches,
matchedRightIds}`; the display content is not modelled). -/
structure LeftData where
  pairId : Nat
  totalMatches : Nat
  currentMatches : Nat
  matchedRightIds : List DomKey
  deriving DecidableEq, Repr

/-- A right card datum of the engine in one-to-many mode
(`{id: "<pairId>-<index>", content, side, pairId, rightIndex}`). -/
structure RightData where
  pairId : Nat
  idx : Nat
  deriving DecidableEq, Repr

/-- `rightCard.id` — the bare string `"<pairId>-<index>"`. -/
def rightRawId (c : RightData) : DomKey := DomKey.raw c.pairId c.idx

/-- `rightCard.dataset.cardId` — `"right-<pairId>-<index>"`. -/
def rightDomId (c : RightData) : DomKey := DomKey.composite Side.right c.pairId c.idx

/-- The engine state touched by the one-to-many handler. -/
structure EngState where
  leftCards : List LeftData
  rightCards : List RightData
  leftPool : List LeftData
  rightPool : List RightData
  score : Int
  correctAnswers : Nat
  combo : Nat
  maxCombo : Nat
  matchedPairs : List Nat
  deriving DecidableEq, Repr

/-- `GameEngine.hasMatchOnBoard()` in one-to-many mode.  Note that
`matchedRightIds` stores DOM keys (`"right-<pid>-<idx>"`) while the
exclusion test rebuilds the bare id (`"<pid>-<idx>"`), so the `includes`
test never fires; the embedding keeps both key shapes faithfully. -/
def hasMatchOnBoardOTM (e : EngState) : Bool :=
  e.leftCards.any (fun lc => e.rightCards.any (fun rc =>
    lc.pairId == rc.pairId && !(lc.matchedRightIds.contains (rightRawId rc))))

/-- `GameEngine.addSmartRightCard()`: with a non-empty right reservoir,
append an arbitrary card when the board already has a match, otherwise
prefer a card compatible with some left card, falling back to an
arbitrary one. -/
def addSmartRightCard (e : EngState) : EngState :=
  match e.rightPool with
  | [] => e
  | first :: rest =>
    if hasMatchOnBoardOTM e then
      { e with rightCards := e.rightCards ++ [first], rightPool := rest }
    else
      match e.rightPool.find? (fun card =>
          e.leftCards.any (fun lc => lc.pairId == card.pairId)) with
      | some found =>
        { e with
            rightCards := e.rightCards ++ [found]
            rightPool := e.rightPool.erase found }
      | none => { e with rightCards := e.rightCards ++ [first], rightPool := rest }

/-- `GameEngine.addNewCards(...)`: nothing when both reservoirs are empty;
otherwise draw a left card when available and always run
`addSmartRightCard`. -/
def addNewCards (e : EngState) : EngState :=
  if e.leftPool = [] ∧ e.rightPool = [] then e
  else
    let e1 :=
      match e.leftPool with
      | [] => e
      | l :: rest => { e with leftCards := e.leftCards ++ [l], leftPool := rest }
    addSmartRightCard e1

/-- Mutate the left card datum that
`this.leftCards.find(c => c.pairId === parseInt(pairId))` returned. -/
def updateFirstLeft (cards : List LeftData) (pid : Nat) (f : LeftData → LeftData) :
    List LeftData :=
  match cards with
  | [] => []
  | c :: rest =>
    if c.pairId = pid then f c :: rest else c :: updateFirstLeft rest pid f

/-- The progress update at the top of `handleOneToManyMatch`: increment
`currentMatches` of the found left card, record the matched right DOM
key, and score 50 points. -/
def otmProgress (e : EngState) (pid : Nat) (rightKey : DomKey) : EngState :=
  { e with
      leftCards := updateFirstLeft e.leftCards pid (fun c =>
        { c with
            currentMatches := c.currentMatches + 1
            matchedRightIds := c.matchedRightIds ++ [rightKey] })
      score := e.score + 50 }

/-- The completion branch of `handleOneToManyMatch`: count the correct
answer, raise the combo, record the matched pair, run
`removeMatchedPair` — which filters both arrays by *simple* side-pairId
keys, so the composite-keyed one-to-many right card is in fact not
removed from the data array — and refill via `addNewCards`. -/
def otmComplete (e1 : EngState) (pid : Nat) (rightKey : DomKey) : EngState :=
  let r := engineIncreaseCombo e1.score e1.combo e1.maxCombo
  let e2 :=
    { e1 with
        correctAnswers := e1.correctAnswers + 1
        score := r.1
        combo := r.2.1
        maxCombo := r.2.2
        matchedPairs :=
          if pid ∈ e1.matchedPairs then e1.matchedPairs
          else e1.matchedPairs ++ [pid] }
  let e3 :=
    { e2 with
        leftCards := e2.leftCards.filter
          (fun c => DomKey.simple Side.left c.pairId != DomKey.simple Side.left pid)
        rightCards := e2.rightCards.filter
          (fun c => DomKey.simple Side.right c.pairId != rightKey) }
  addNewCards e3

/-- The partial branch of `handleOneToManyMatch`: remove only the right
card (by its composite DOM key) and refill via `addSmartRightCard`. -/
def otmPartial (e1 : EngState) (rightKey : DomKey) : EngState :=
  addSmartRightCard
    { e1 with
        rightCards := e1.rightCards.filter (fun c => rightDomId c != rightKey) }

/-- `GameEngine.handleOneToManyMatch(leftCard, rightCard, pairId)` at the
data level, with the timer-ordered array updates applied in order. -/
def handleOneToManyMatch (e : EngState) (pid : Nat) (rc : RightData) : EngState :=
  match e.leftCards.find? (fun c => c.pairId == pid) with
  | none => e
  | some ld =>
    if ld.totalMatches ≤ ld.currentMatches + 1 then
      otmComplete (otmProgress e pid (rightDomId rc)) pid (rightDomId rc)
    else
      otmPartial (otmProgress e pid (rightDomId rc)) (rightDomId rc)

/-! ## Concrete instances used by counterexamples and witnesses -/

/-- Shuffle parameters that keep every sequence in place (one of the
possible outcomes of a Fisher-Yates shuffle). -/
def idShuffles : Shuffles :=
  { shufPool1 := id, shufPool2 := id, shufPool3 := id
    shufLeft := id, shufRight := id, shufEnsure := fun _ l => l }

/-- A simple catalog of 12 one-to-one pairs (ids 1..12). -/
def exPairs12 : List SimplePair :=
  (List.range 12).map (fun i => { id := i + 1, left := "L", right := "R" })

/-- The initializer run on `exPairs12` under a shuffle execution where the
right reservoir comes out rotated by 6 and every retry reshuffle leaves
the order unchanged: the leading slices never share a pair id. -/
def exBoard12 : BoardSetup :=
  initializeCardsV4 id (fun l => l.rotate 6) (fun _ l => l) exPairs12

/-- A simple catalog of 3 pairs. -/
def exPairs3 : List SimplePair :=
  [{ id := 1, left := "a", right := "x" },
   { id := 2, left := "b", right := "y" },
   { id := 3, left := "c", right := "z" }]

/-- A mid-game model state used to exercise `getReplacements`: the left
card 10 and the right card 20 of pair 1 were just matched; pair 2 is
active on both sides; the reservoirs are non-empty. -/
def exRefillGM : GM :=
  { cards :=
      [{ id := 10, pairId := 1, side := Side.left, state := CState.matched },
       { id := 20, pairId := 1, side := Side.right, state := CState.matched },
       { id := 11, pairId := 2, side := Side.left, state := CState.active },
       { id := 21, pairId := 2, side := Side.right, state := CState.active },
       { id := 12, pairId := 3, side := Side.left, state := CState.pool },
       { id := 22, pairId := 3, side := Side.right, state := CState.pool }]
    boardLeft :=
      [{ id := 10, pairId := 1, side := Side.left, state := CState.matched },
       { id := 11, pairId := 2, side := Side.left, state := CState.active }]
    boardRight :=
      [{ id := 20, pairId := 1, side := Side.right, state := CState.matched },
       { id := 21, pairId := 2, side := Side.right, state := CState.active }]
    poolLeft := [{ id := 12, pairId := 3, side := Side.left, state := CState.pool }]
    poolRight := [{ id := 22, pairId := 3, side := Side.right, state := CState.pool }]
    score := 50, correctAnswers := 1, incorrectAnswers := 0
    combo := 1, maxCombo := 1, matchedPairsCount := 1, totalPairs := 3 }

/-- An active left card of pair 7. -/
def exCardL : Card :=
  { id := 1, pairId := 7, side := Side.left, state := CState.active }

/-- An active right card of pair 7. -/
def exCardR : Card :=
  { id := 2, pairId := 7, side := Side.right, state := CState.active,
    description := some "d" }

/-- A model state with two active cross-side cards of the same pair, used
to exercise `checkMatch` and `applyMatch`. -/
def exOracleGM : GM :=
  { cards := [exCardL, exCardR]
    boardLeft := [exCardL]
    boardRight := [exCardR]
    poolLeft := [], poolRight := []
    score := 0, correctAnswers := 0, incorrectAnswers := 0
    combo := 0, maxCombo := 0, matchedPairsCount := 0, totalPairs := 1 }

/-- A session in which the player made 7 incorrect attempts and no
correct one. -/
def exNoCorrectGM : GM :=
  { exOracleGM with incorrectAnswers := 7, score := 0 }

/-- A concrete distribution request. -/
def exDist : Dist := { easy := 2, medium := 0, hard := 1 }

/-- A freshly constructed model (the constructor state of `GameModel`). -/
def exFreshGM : GM :=
  { cards := [], boardLeft := [], boardRight := [], poolLeft := [], poolRight := []
    score := 0, correctAnswers := 0, incorrectAnswers := 0
    combo := 0, maxCombo := 0, matchedPairsCount := 0, totalPairs := 0 }

/-- One fully valid catalog pair with a single easy right variant. -/
def exThemePair (i : Nat) : ThemePair :=
  { id := i, left := "word", rights := [{ text := "t", difficulty := 1 }] }

/-- A valid theme document with exactly 3 pairs. -/
def exThemeDoc3 : ThemeDoc :=
  { title := "T", pairs := [exThemePair 1, exThemePair 2, exThemePair 3] }

/-- A valid theme document with exactly 6 pairs. -/
def exThemeDoc6 : ThemeDoc :=
  { title := "T",
    pairs := [exThemePair 1, exThemePair 2, exThemePair 3,
              exThemePair 4, exThemePair 5, exThemePair 6] }

/-- A one-to-many engine state: the left card of pair 1 needs 3 right
matches and has found none yet; a compatible right card is on the board
and one more waits in the reservoir. -/
def exEngState : EngState :=
  { leftCards := [{ pairId := 1, totalMatches := 3, currentMatches := 0,
                    matchedRightIds := [] }]
    rightCards := [{ pairId := 1, idx := 0 }, { pairId := 2, idx := 0 }]
    leftPool := [{ pairId := 2, totalMatches := 1, currentMatches := 0,
                   matchedRightIds := [] }]
    rightPool := [{ pairId := 1, idx := 1 }]
    score := 0, correctAnswers := 0, combo := 0, maxCombo := 0
    matchedPairs := [] }

/-- The one-to-many engine state of `exEngState` with the left card of
pair 1 already at 2 of 3 found matches. -/
def exEngStateAlmost : EngState :=
  { exEngState with
      leftCards := [{ pairId := 1, totalMatches := 3, currentMatches := 2,
                      matchedRightIds := [DomKey.composite Side.right 1 2,
                                          DomKey.composite Side.right 1 3] }] }

end ItsAMatch

namespace ItsAMatch

/-! # Theorems -/

/-- **C5** — The session state machine accepts exactly the transitions of
the table IDLE→{LOADING,ERROR}, LOADING→{READY,ERROR}, READY→{PLAYING,ERROR},
PLAYING→{CHECKING,FINISHED,ERROR}, CHECKING→{PLAYING,FINISHED,ERROR},
FINISHED→{IDLE}, ERROR→{IDLE,LOADING}: for a listed pair `setState`
returns `true` and moves to the new state, and for every other pair it
returns `false` and leaves the state unchanged. -/
theorem setState_transition_table :
    ∀ s t : GState,
      ((s, t) ∈ specTransitionTable → setState s t = (true, t)) ∧
      ((s, t) ∉ specTransitionTable → setState s t = (false, s)) := by
  decide

/-- **C4** — On a validated incorrect match the model increments
`incorrectAnswers`, applies the fixed −10 penalty floored at zero (hence
the score is never negative, even from 0), resets the combo to exactly 0,
and touches no card; the engine's mismatch branch does the same to its
own statistics. -/
theorem applyMismatch_penalty_floor_combo_reset :
    (∀ m : GM,
      (applyMismatch m).incorrectAnswers = m.incorrectAnswers + 1 ∧
      (applyMismatch m).score = max 0 (m.score - 10) ∧
      0 ≤ (applyMismatch m).score ∧
      (applyMismatch m).combo = 0 ∧
      (applyMismatch m).cards = m.cards ∧
      (applyMismatch m).boardLeft = m.boardLeft ∧
      (applyMismatch m).boardRight = m.boardRight) ∧
    (applyMismatch { exOracleGM with score := 0 }).score = 0 ∧
    (∀ (score : Int) (incorrectAnswers : Nat),
      engineMismatchStep score incorrectAnswers =
        (max 0 (score - 10), incorrectAnswers + 1, 0) ∧
      0 ≤ (engineMismatchStep score incorrectAnswers).1) := by
  refine ⟨fun m => ?_, by decide, fun score incorrectAnswers => ⟨rfl, le_max_left 0 _⟩⟩
  refine ⟨rfl, ?_, le_max_left 0 _, rfl, rfl, rfl, rfl⟩
  show max 0 (m.score + SCORE_INCORRECT) = max 0 (m.score - 10)
  norm_num [SCORE_INCORRECT, Int.sub_eq_add_neg]

/-- **C10** — `getResults` reports accuracy 100 whenever
`correctAnswers = 0`, regardless of `incorrectAnswers`. -/
theorem getResults_accuracy_zero_correct :
    ∀ m : GM, m.correctAnswers = 0 → (getResults m).accuracy = 100 := by
  intro m h
  simp [getResults, accuracyOf, h]

/-- Witness for C10: a session with 7 incorrect attempts and no correct
one still reports 100% accuracy. -/
theorem getResults_accuracy_zero_correct_witness :
    0 < exNoCorrectGM.incorrectAnswers ∧
      (getResults exNoCorrectGM).accuracy = 100 :=
  ⟨by decide, getResults_accuracy_zero_correct exNoCorrectGM (by decide)⟩

/-- **C2** — `checkMatch` is a side-effect-free oracle: the model state
comes back unchanged; a missing card yields `NOT_FOUND`; a found but
inactive card yields `NOT_ACTIVE`; two active same-side cards yield
`SAME_SIDE`; and for two active cross-side cards it succeeds with
`isMatch` true exactly when the two pair ids are equal. -/
theorem checkMatch_oracle_characterization :
    ∀ (m : GM) (cardId1 cardId2 : Nat),
      (checkMatchRun m cardId1 cardId2).2 = m ∧
      ((findCard m.cards cardId1 = none ∨ findCard m.cards cardId2 = none) →
        checkMatch m cardId1 cardId2 = Except.error MatchError.NOT_FOUND) ∧
      (∀ c1 c2 : Card,
        findCard m.cards cardId1 = some c1 → findCard m.cards cardId2 = some c2 →
        ((c1.state ≠ CState.active ∨ c2.state ≠ CState.active) →
          checkMatch m cardId1 cardId2 = Except.error MatchError.NOT_ACTIVE) ∧
        (c1.state = CState.active → c2.state = CState.active → c1.side = c2.side →
          checkMatch m cardId1 cardId2 = Except.error MatchError.SAME_SIDE) ∧
        (c1.state = CState.active → c2.state = CState.active → c1.side ≠ c2.side →
          ∃ ok, checkMatch m cardId1 cardId2 = Except.ok ok ∧
            (ok.isMatch = true ↔ c1.pairId = c2.pairId) ∧
            ok.pairId = c1.pairId)) := by
  intro m cardId1 cardId2
  refine ⟨rfl, ?_, ?_⟩
  · intro h
    cases h1 : findCard m.cards cardId1 with
    | none => simp [checkMatch, h1]
    | some c1 =>
      rcases h with h | h
      · rw [h1] at h; simp at h
      · simp [checkMatch, h1, h]
  · intro c1 c2 h1 h2
    refine ⟨?_, ?_, ?_⟩
    · intro hna
      simp [checkMatch, h1, h2, if_pos hna]
    · intro ha1 ha2 hside
      have hcond : ¬ (c1.state ≠ CState.active ∨ c2.state ≠ CState.active) := by
        push_neg; exact ⟨ha1, ha2⟩
      simp only [checkMatch, h1, h2]
      rw [if_neg hcond, if_pos hside]
    · intro ha1 ha2 hside
      have hcond : ¬ (c1.state ≠ CState.active ∨ c2.state ≠ CState.active) := by
        push_neg; exact ⟨ha1, ha2⟩
      refine ⟨{ isMatch := c1.pairId == c2.pairId, card1 := c1, card2 := c2,
                pairId := c1.pairId,
                description :=
                  if c2.side = Side.right then c2.description else c1.description },
              ?_, by simp, rfl⟩
      simp only [checkMatch, h1, h2]
      rw [if_neg hcond, if_neg hside]

/-- Witness for C2: on a concrete model the oracle accepts the active
cross-side pair and reports the match. -/
theorem checkMatch_oracle_characterization_witness :
    ∃ ok, checkMatch exOracleGM 1 2 = Except.ok ok ∧
      (ok.isMatch = true ↔ exCardL.pairId = exCardR.pairId) ∧
      ok.pairId = exCardL.pairId :=
  (((checkMatch_oracle_characterization exOracleGM 1 2).2.2 exCardL exCardR
      (by decide) (by decide)).2.2) (by decide) (by decide) (by decide)

/-- **C3 counterexample** — The engine's scoring path contradicts the
claim: reaching combo 3 already pays a bonus of 10 (not 0), and the total
score increase for that correct match is 110, not the claimed
`50 + comboBonus = 50 + 0` (the base 50 is added once in `checkMatch` and
once more in `handleOneToOneMatch`). -/
theorem engine_combo_bonus_before_threshold :
    calculateComboBonus 3 ≠ 0 ∧
    (engineCorrectOneToOne 0 2 2 0).1 = 110 ∧
    (engineCorrectOneToOne 0 2 2 0).1 ≠ 0 + 50 + (comboBonus (2 + 1) : Nat) := by
  decide

/-- **C3 (amended)** — In `GameModel.applyMatch` a validated correct match
adds exactly base 50 plus `comboBonus` of the new combo, increments
`correctAnswers`, `matchedPairsCount` and `combo` by one and updates
`maxCombo`; the bonus is 0 for combo 1..4, positive at 5, equals
`(combo − 5 + 1) · COMBO_BONUS` from 5 on, and is non-decreasing.  (The
legacy engine path instead pays bonuses from combo 3 and adds the base
twice, as the counterexample records.) -/
theorem applyMatch_score_and_counters :
    (∀ (m : GM) (cardId1 cardId2 : Nat) (c1 c2 : Card),
      findCard m.cards cardId1 = some c1 → findCard m.cards cardId2 = some c2 →
      (applyMatch m cardId1 cardId2).1 = true ∧
      (applyMatch m cardId1 cardId2).2.score =
        m.score + SCORE_CORRECT + (comboBonus (m.combo + 1) : Nat) ∧
      (applyMatch m cardId1 cardId2).2.correctAnswers = m.correctAnswers + 1 ∧
      (applyMatch m cardId1 cardId2).2.matchedPairsCount = m.matchedPairsCount + 1 ∧
      (applyMatch m cardId1 cardId2).2.combo = m.combo + 1 ∧
      (applyMatch m cardId1 cardId2).2.maxCombo = Nat.max m.maxCombo (m.combo + 1)) ∧
    (∀ c, 1 ≤ c → c ≤ 4 → comboBonus c = 0) ∧
    0 < comboBonus 5 ∧
    (∀ c, 5 ≤ c → comboBonus c = (c - 5 + 1) * COMBO_BONUS) ∧
    (∀ c d, c ≤ d → comboBonus c ≤ comboBonus d) := by
  refine ⟨?_, ?_, by decide, ?_, ?_⟩
  · intro m cardId1 cardId2 c1 c2 h1 h2
    simp [applyMatch, h1, h2]
  · intro c h1 h4
    unfold comboBonus
    rw [if_neg (by omega)]
  · intro c h5
    unfold comboBonus COMBO_BONUS
    rw [if_pos h5]
    omega
  · intro c d h
    unfold comboBonus COMBO_BONUS
    split_ifs with h1 h2 <;> omega

/-- Witness for C3: the amended statement evaluated on a concrete model
(combo 0 before the match, so the bonus of the new combo 1 is 0). -/
theorem applyMatch_score_and_counters_witness :
    (applyMatch exOracleGM 1 2).1 = true ∧
    (applyMatch exOracleGM 1 2).2.score =
      exOracleGM.score + SCORE_CORRECT + (comboBonus (exOracleGM.combo + 1) : Nat) ∧
    (applyMatch exOracleGM 1 2).2.correctAnswers = exOracleGM.correctAnswers + 1 ∧
    (applyMatch exOracleGM 1 2).2.matchedPairsCount =
      exOracleGM.matchedPairsCount + 1 ∧
    (applyMatch exOracleGM 1 2).2.combo = exOracleGM.combo + 1 ∧
    (applyMatch exOracleGM 1 2).2.maxCombo =
      Nat.max exOracleGM.maxCombo (exOracleGM.combo + 1) :=
  applyMatch_score_and_counters.1 exOracleGM 1 2 exCardL exCardR
    (by decide) (by decide)

/-- All individually valid pairs validate as a list. -/
theorem validatePairEntries_ok (ps : List ThemePair)
    (h : ∀ p ∈ ps, validatePairEntry p = Except.ok ()) :
    validatePairEntries ps = Except.ok () := by
  induction ps with
  | nil => rfl
  | cons p rest ih =>
    have hp := h p (by simp)
    simp only [validatePairEntries, hp]
    exact ih (fun q hq => h q (by simp [hq]))

/-- **C8 counterexample** — A catalog of exactly 3 fully valid pairs
passes the engine's pair-count validation but is rejected by
`GameController.validateTheme`, which demands at least 6 pairs; so the
claim that catalog validation before session start accepts 3-pair
catalogs fails on the controller path. -/
theorem controller_rejects_small_catalog :
    enginePairCountCheck exThemeDoc3.pairs = Except.ok () ∧
    validatePairEntries exThemeDoc3.pairs = Except.ok () ∧
    validateThemeController exThemeDoc3 =
      Except.error ThemeError.notEnoughPairsController := by
  decide

/-- **C8 (amended)** — The engine's pair-count check accepts exactly the
catalogs with at least 3 pairs (rejecting empty or smaller ones with a
descriptive failure), while `GameController.validateTheme` accepts a
document only if it has at least 6 pairs: any non-empty catalog with
fewer than 6 pairs — in particular one with exactly 3, 4 or 5 valid
pairs — is rejected there, and a valid document with at least 6 pairs is
accepted. -/
theorem theme_validation_min_pairs :
    (∀ pairs : List ThemePair,
      (enginePairCountCheck pairs = Except.ok ()) ↔ 3 ≤ pairs.length) ∧
    (∀ doc : ThemeDoc,
      validateThemeController doc = Except.ok () → 6 ≤ doc.pairs.length) ∧
    (∀ doc : ThemeDoc, 0 < doc.pairs.length → doc.pairs.length < 6 →
      validateThemeController doc =
        Except.error ThemeError.notEnoughPairsController) ∧
    (∀ doc : ThemeDoc, doc.title ≠ "" → 6 ≤ doc.pairs.length →
      (∀ p ∈ doc.pairs, validatePairEntry p = Except.ok ()) →
      validateThemeController doc = Except.ok ()) := by
  refine ⟨?_, ?_, ?_, ?_⟩
  · intro pairs
    unfold enginePairCountCheck
    split_ifs with h1 h2 <;> simp <;> omega
  · intro doc h
    unfold validateThemeController at h
    split_ifs at h with h1 h2 h3
    omega
  · intro doc h0 h6
    unfold validateThemeController
    rw [if_neg (by omega), if_pos h6]
  · intro doc ht h6 hvalid
    unfold validateThemeController
    rw [if_neg (by omega), if_neg (by omega), if_neg ht]
    exact validatePairEntries_ok doc.pairs hvalid

/-- Witness for C8: a fully valid 6-pair document is accepted by the
controller, and the engine check accepts the 3-pair catalog. -/
theorem theme_validation_min_pairs_witness :
    validateThemeController exThemeDoc6 = Except.ok () ∧
    enginePairCountCheck exThemeDoc3.pairs = Except.ok () :=
  ⟨theme_validation_min_pairs.2.2.2 exThemeDoc6 (by decide) (by decide)
      (by decide),
   (theme_validation_min_pairs.1 exThemeDoc3.pairs).mpr (by decide)⟩

/-- **C9** — The v5 `GameModel.initializeCards` never succeeds: whenever
the selection is non-empty it completes the board setup and then
evaluates the never-declared identifier `matches`, raising a
`ReferenceError`; with an empty selection it throws directly.  Session
initialization through this model therefore never returns normally, for
any catalog, distribution and shuffle outcome. -/
theorem initializeCards_always_raises :
    (∀ (sh : Shuffles) (m : GM) (pairs : List ThemePair) (dist : Dist),
      (initializeCards sh m pairs dist).2 ≠ Except.ok ()) ∧
    (∀ (sh : Shuffles) (m : GM) (pairs : List ThemePair) (dist : Dist),
      selectCardsForGame sh pairs dist ≠ [] →
      (initializeCards sh m pairs dist).2 =
        Except.error JsErr.referenceErrorMatches) := by
  constructor
  · intro sh m pairs dist
    by_cases h : (selectCardsForGame sh pairs dist).length = 0 <;>
      simp [initializeCards, h]
  · intro sh m pairs dist hne
    have h : ¬ (selectCardsForGame sh pairs dist).length = 0 := by
      simpa [List.length_eq_zero] using hne
    simp [initializeCards, h]

/-- Witness for C9: on a fully valid 3-pair catalog with distribution
`{easy := 3}` the selection is non-empty and the initializer exits with
the `ReferenceError` on `matches`. -/
theorem initializeCards_always_raises_witness :
    selectCardsForGame idShuffles exThemeDoc3.pairs
        { easy := 3, medium := 0, hard := 0 } ≠ [] ∧
    (initializeCards idShuffles exFreshGM exThemeDoc3.pairs
        { easy := 3, medium := 0, hard := 0 }).2 =
      Except.error JsErr.referenceErrorMatches :=
  ⟨by decide,
   initializeCards_always_raises.2 idShuffles exFreshGM exThemeDoc3.pairs
     { easy := 3, medium := 0, hard := 0 } (by decide)⟩

/-- One tier of the picking loop: the picked candidates form a sublist of
the bucket, at most `count` are picked, the claimed set afterwards is the
picked left values on top of the incoming ones, and claimed sets stay
duplicate-free. -/
theorem pickFromPool_spec :
    ∀ (pool : List SelectedPair) (count : Nat) (used : List Nat),
      List.Sublist (pickFromPool pool count used).1 pool ∧
      (pickFromPool pool count used).1.length ≤ count ∧
      List.Perm (pickFromPool pool count used).2
        ((pickFromPool pool count used).1.map SelectedPair.pairId ++ used) ∧
      (used.Nodup → (pickFromPool pool count used).2.Nodup) := by
  intro pool
  induction pool with
  | nil =>
    intro count used
    exact ⟨List.Sublist.refl _, by simp [pickFromPool],
      by simp [pickFromPool], fun h => h⟩
  | cons c rest ih =>
    intro count used
    by_cases hc : count = 0
    · refine ⟨?_, ?_, ?_, ?_⟩ <;> simp [pickFromPool, hc]
    · by_cases hm : c.pairId ∈ used
      · have h := ih count used
        refine ⟨?_, ?_, ?_, ?_⟩ <;> simp only [pickFromPool, if_neg hc, if_pos hm]
        · exact h.1.cons c
        · exact h.2.1
        · exact h.2.2.1
        · exact h.2.2.2
      · have h := ih (count - 1) (c.pairId :: used)
        refine ⟨?_, ?_, ?_, ?_⟩ <;> simp only [pickFromPool, if_neg hc, if_neg hm]
        · exact h.1.cons₂ c
        · have hl := h.2.1
          simp only [List.length_cons]
          omega
        · have hp := h.2.2.1
          simp only [List.map_cons]
          exact hp.trans List.perm_middle
        · intro hu
          exact h.2.2.2 (List.nodup_cons.mpr ⟨hm, hu⟩)

/-- The selector core keeps left values unique, never exceeds the
requested total, and decomposes into the hard, medium and easy segments
in that order, each a (possibly shorter) selection from its own bucket. -/
theorem selectFromPools_spec (p3 p2 p1 : List SelectedPair) (dist : Dist) :
    ((selectFromPools p3 p2 p1 dist).map SelectedPair.pairId).Nodup ∧
    (selectFromPools p3 p2 p1 dist).length ≤
      dist.easy + dist.medium + dist.hard ∧
    ∃ s3 s2 s1,
      selectFromPools p3 p2 p1 dist = s3 ++ s2 ++ s1 ∧
      s3.length ≤ dist.hard ∧ s2.length ≤ dist.medium ∧
      s1.length ≤ dist.easy ∧
      List.Sublist s3 p3 ∧ List.Sublist s2 p2 ∧ List.Sublist s1 p1 := by
  set r3 := pickFromPool p3 dist.hard [] with hr3
  set r2 := pickFromPool (p2.filter (fun c => !(r3.2.contains c.pairId)))
    dist.medium r3.2 with hr2
  set r1 := pickFromPool (p1.filter (fun c => !(r2.2.contains c.pairId)))
    dist.easy r2.2 with hr1
  have hout : selectFromPools p3 p2 p1 dist = r3.1 ++ r2.1 ++ r1.1 := rfl
  obtain ⟨hs3, hl3, hp3, hn3⟩ := pickFromPool_spec p3 dist.hard []
  rw [← hr3] at hs3 hl3 hp3 hn3
  obtain ⟨hs2, hl2, hp2, hn2⟩ :=
    pickFromPool_spec (p2.filter (fun c => !(r3.2.contains c.pairId)))
      dist.medium r3.2
  rw [← hr2] at hs2 hl2 hp2 hn2
  obtain ⟨hs1, hl1, hp1, hn1⟩ :=
    pickFromPool_spec (p1.filter (fun c => !(r2.2.contains c.pairId)))
      dist.easy r2.2
  rw [← hr1] at hs1 hl1 hp1 hn1
  refine ⟨?_, ?_, r3.1, r2.1, r1.1, hout, hl3, hl2, hl1, hs3,
    hs2.trans (List.filter_sublist _), hs1.trans (List.filter_sublist _)⟩
  · have hnod : r1.2.Nodup := hn1 (hn2 (hn3 List.nodup_nil))
    have hperm : List.Perm r1.2
        (r1.1.map SelectedPair.pairId ++
          (r2.1.map SelectedPair.pairId ++
            (r3.1.map SelectedPair.pairId ++ []))) :=
      hp1.trans (List.Perm.append_left _ (hp2.trans
        (List.Perm.append_left _ hp3)))
    have hres := hperm.nodup hnod
    simp only [List.append_nil] at hres
    rw [hout]
    simp only [List.map_append]
    exact (List.perm_append_comm.trans
      (List.Perm.append_right _ List.perm_append_comm)).nodup hres
  · rw [hout]
    simp only [List.length_append]
    omega

/-- **C6** — For every catalog (with the validated difficulty tiers) and
every requested distribution, the selector's output names no left value
(pair id) twice and has length at most `easy + medium + hard`; it
decomposes into the hard, medium and easy segments processed in that
order, each segment drawn from its own shuffled bucket (the purge of an
accepted left value's other variants keeps the segments disjoint), and a
tier shortfall only shortens the corresponding segment. -/
theorem selectCardsForGame_unique_and_bounded :
    ∀ (sh : Shuffles) (pairs : List ThemePair) (dist : Dist),
      (∀ p ∈ pairs, ∀ r ∈ p.rights,
        r.difficulty = 1 ∨ r.difficulty = 2 ∨ r.difficulty = 3) →
      ((selectCardsForGame sh pairs dist).map SelectedPair.pairId).Nodup ∧
      (selectCardsForGame sh pairs dist).length ≤
        dist.easy + dist.medium + dist.hard ∧
      ∃ s3 s2 s1,
        selectCardsForGame sh pairs dist = s3 ++ s2 ++ s1 ∧
        s3.length ≤ dist.hard ∧ s2.length ≤ dist.medium ∧
        s1.length ≤ dist.easy ∧
        List.Sublist s3 (sh.shufPool3 (rightCardPool pairs 3)) ∧
        List.Sublist s2 (sh.shufPool2 (rightCardPool pairs 2)) ∧
        List.Sublist s1 (sh.shufPool1 (rightCardPool pairs 1)) := by
  intro sh pairs dist _
  exact selectFromPools_spec _ _ _ dist

/-- Witness for C6: the selector run on the valid 3-pair catalog with a
concrete distribution request. -/
theorem selectCardsForGame_unique_and_bounded_witness :
    ((selectCardsForGame idShuffles exThemeDoc3.pairs exDist).map
        SelectedPair.pairId).Nodup ∧
    (selectCardsForGame idShuffles exThemeDoc3.pairs exDist).length ≤
      exDist.easy + exDist.medium + exDist.hard ∧
    ∃ s3 s2 s1,
      selectCardsForGame idShuffles exThemeDoc3.pairs exDist = s3 ++ s2 ++ s1 ∧
      s3.length ≤ exDist.hard ∧ s2.length ≤ exDist.medium ∧
      s1.length ≤ exDist.easy ∧
      List.Sublist s3 (idShuffles.shufPool3 (rightCardPool exThemeDoc3.pairs 3)) ∧
      List.Sublist s2 (idShuffles.shufPool2 (rightCardPool exThemeDoc3.pairs 2)) ∧
      List.Sublist s1 (idShuffles.shufPool1 (rightCardPool exThemeDoc3.pairs 1)) :=
  selectCardsForGame_unique_and_bounded idShuffles exThemeDoc3.pairs exDist
    (by decide)

/-- `increaseCombo` always increments the streak by one. -/
theorem engineIncreaseCombo_combo (score : Int) (combo maxCombo : Nat) :
    (engineIncreaseCombo score combo maxCombo).2.1 = combo + 1 := by
  simp only [engineIncreaseCombo]
  split_ifs <;> rfl

/-- `addSmartRightCard` only touches the right board and the right
reservoir. -/
theorem addSmartRightCard_stats (e : EngState) :
    (addSmartRightCard e).correctAnswers = e.correctAnswers ∧
    (addSmartRightCard e).combo = e.combo ∧
    (addSmartRightCard e).leftCards = e.leftCards ∧
    (addSmartRightCard e).leftPool = e.leftPool ∧
    (addSmartRightCard e).matchedPairs = e.matchedPairs := by
  unfold addSmartRightCard
  cases hp : e.rightPool with
  | nil => exact ⟨rfl, rfl, rfl, rfl, rfl⟩
  | cons first rest =>
    by_cases h : hasMatchOnBoardOTM e = true
    · simp [h]
    · simp only [Bool.not_eq_true] at h
      simp only [h]
      cases hf : (first :: rest).find? (fun card =>
          e.leftCards.any (fun lc => lc.pairId == card.pairId)) with
      | none => simp [hf]
      | some found => simp [hf]

/-- With a non-empty right reservoir, `addSmartRightCard` appends exactly
one reservoir card to the right board. -/
theorem addSmartRightCard_appends (e : EngState) (h : e.rightPool ≠ []) :
    ∃ nc ∈ e.rightPool,
      (addSmartRightCard e).rightCards = e.rightCards ++ [nc] := by
  unfold addSmartRightCard
  cases hp : e.rightPool with
  | nil => exact absurd hp h
  | cons first rest =>
    by_cases hm : hasMatchOnBoardOTM e = true
    · exact ⟨first, List.mem_cons_self _ _, by simp [hm]⟩
    · simp only [Bool.not_eq_true] at hm
      cases hf : (first :: rest).find? (fun card =>
          e.leftCards.any (fun lc => lc.pairId == card.pairId)) with
      | none =>
        exact ⟨first, List.mem_cons_self _ _, by simp [hm, hf]⟩
      | some found =>
        exact ⟨found, List.mem_of_find?_eq_some hf, by simp [hm, hf]⟩

/-- `addNewCards` only moves cards; the statistics are untouched. -/
theorem addNewCards_stats (e : EngState) :
    (addNewCards e).correctAnswers = e.correctAnswers ∧
    (addNewCards e).combo = e.combo ∧
    (addNewCards e).matchedPairs = e.matchedPairs := by
  unfold addNewCards
  by_cases h : e.leftPool = [] ∧ e.rightPool = []
  · simp [h]
  · simp only [if_neg h]
    cases hl : e.leftPool with
    | nil =>
      obtain ⟨h1, h2, _, _, h5⟩ := addSmartRightCard_stats e
      exact ⟨h1, h2, h5⟩
    | cons l rest =>
      obtain ⟨h1, h2, _, _, h5⟩ := addSmartRightCard_stats
        { e with leftCards := e.leftCards ++ [l], leftPool := rest }
      exact ⟨h1, h2, h5⟩

/-- Every left card after `addNewCards` was on the board or in the left
reservoir before. -/
theorem addNewCards_leftCards (e : EngState) :
    ∀ c ∈ (addNewCards e).leftCards, c ∈ e.leftCards ∨ c ∈ e.leftPool := by
  unfold addNewCards
  by_cases h : e.leftPool = [] ∧ e.rightPool = []
  · simp only [if_pos h]
    exact fun c hc => Or.inl hc
  · simp only [if_neg h]
    cases hl : e.leftPool with
    | nil =>
      intro c hc
      rw [(addSmartRightCard_stats e).2.2.1] at hc
      exact Or.inl hc
    | cons l rest =>
      intro c hc
      rw [(addSmartRightCard_stats _).2.2.1] at hc
      simp only [List.mem_append, List.mem_singleton] at hc
      rcases hc with hc | hc
      · exact Or.inl hc
      · exact Or.inr (by rw [hc]; exact List.mem_cons_self _ _)

/-- `updateFirstLeft` preserves the board size. -/
theorem updateFirstLeft_length (l : List LeftData) (pid : Nat)
    (f : LeftData → LeftData) :
    (updateFirstLeft l pid f).length = l.length := by
  induction l with
  | nil => rfl
  | cons c rest ih =>
    unfold updateFirstLeft
    by_cases h : c.pairId = pid <;> simp [h, ih]

/-- `updateFirstLeft` rewrites exactly the card that `find?` located,
provided the update keeps the pair id. -/
theorem updateFirstLeft_find (l : List LeftData) (pid : Nat)
    (f : LeftData → LeftData) (ld : LeftData)
    (hf : ∀ x, (f x).pairId = x.pairId)
    (h : l.find? (fun c => c.pairId == pid) = some ld) :
    (updateFirstLeft l pid f).find? (fun c => c.pairId == pid) = some (f ld) := by
  induction l with
  | nil => simp at h
  | cons c rest ih =>
    by_cases hc : c.pairId = pid
    · have hbeq : (c.pairId == pid) = true := by simp [hc]
      have hfind : (c :: rest).find? (fun c => c.pairId == pid) = some c := by
        simp [List.find?, hbeq]
      rw [hfind] at h
      cases h
      have hbeq2 : ((f ld).pairId == pid) = true := by simp [hf, hc]
      unfold updateFirstLeft
      rw [if_pos hc]
      simp [List.find?, hbeq2]
    · have hbeq : (c.pairId == pid) = false := by simp [hc]
      have hfind : (c :: rest).find? (fun c => c.pairId == pid) =
          rest.find? (fun c => c.pairId == pid) := by
        simp [List.find?, hbeq]
      rw [hfind] at h
      unfold updateFirstLeft
      rw [if_neg hc]
      simpa [List.find?, hbeq] using ih h

/-- The partial branch keeps the statistics and the left board, removes
the right card with the matched DOM key, and (reservoir permitting)
appends one reservoir card. -/
theorem otmPartial_spec (e1 : EngState) (k : DomKey) :
    (otmPartial e1 k).correctAnswers = e1.correctAnswers ∧
    (otmPartial e1 k).combo = e1.combo ∧
    (otmPartial e1 k).leftCards = e1.leftCards ∧
    (e1.rightPool ≠ [] → ∃ nc ∈ e1.rightPool,
      (otmPartial e1 k).rightCards =
        e1.rightCards.filter (fun c => rightDomId c != k) ++ [nc]) := by
  obtain ⟨h1, h2, h3, _, _⟩ := addSmartRightCard_stats
    { e1 with rightCards := e1.rightCards.filter (fun c => rightDomId c != k) }
  refine ⟨h1, h2, h3, ?_⟩
  intro hpool
  obtain ⟨nc, hnc, heq⟩ := addSmartRightCard_appends
    { e1 with rightCards := e1.rightCards.filter (fun c => rightDomId c != k) }
    hpool
  exact ⟨nc, hnc, heq⟩

/-- The completion branch counts one correct answer, raises the combo by
one, records the pair as matched, and leaves no left card of that pair on
the board except ones drawn from the left reservoir. -/
theorem otmComplete_spec (e1 : EngState) (pid : Nat) (k : DomKey) :
    (otmComplete e1 pid k).correctAnswers = e1.correctAnswers + 1 ∧
    (otmComplete e1 pid k).combo = e1.combo + 1 ∧
    pid ∈ (otmComplete e1 pid k).matchedPairs ∧
    (∀ c ∈ (otmComplete e1 pid k).leftCards,
      c ∈ e1.leftPool ∨ c.pairId ≠ pid) := by
  have hun : otmComplete e1 pid k = addNewCards
      { e1 with
          correctAnswers := e1.correctAnswers + 1
          score := (engineIncreaseCombo e1.score e1.combo e1.maxCombo).1
          combo := (engineIncreaseCombo e1.score e1.combo e1.maxCombo).2.1
          maxCombo := (engineIncreaseCombo e1.score e1.combo e1.maxCombo).2.2
          matchedPairs :=
            if pid ∈ e1.matchedPairs then e1.matchedPairs
            else e1.matchedPairs ++ [pid]
          leftCards := e1.leftCards.filter
            (fun c => DomKey.simple Side.left c.pairId != DomKey.simple Side.left pid)
          rightCards := e1.rightCards.filter
            (fun c => DomKey.simple Side.right c.pairId != k) } := rfl
  rw [hun]
  obtain ⟨a1, a2, a3⟩ := addNewCards_stats
    { e1 with
        correctAnswers := e1.correctAnswers + 1
        score := (engineIncreaseCombo e1.score e1.combo e1.maxCombo).1
        combo := (engineIncreaseCombo e1.score e1.combo e1.maxCombo).2.1
        maxCombo := (engineIncreaseCombo e1.score e1.combo e1.maxCombo).2.2
        matchedPairs :=
          if pid ∈ e1.matchedPairs then e1.matchedPairs
          else e1.matchedPairs ++ [pid]
        leftCards := e1.leftCards.filter
          (fun c => DomKey.simple Side.left c.pairId != DomKey.simple Side.left pid)
        rightCards := e1.rightCards.filter
          (fun c => DomKey.simple Side.right c.pairId != k) }
  refine ⟨a1, ?_, ?_, ?_⟩
  · rw [a2]
    exact engineIncreaseCombo_combo e1.score e1.combo e1.maxCombo
  · rw [a3]
    by_cases hm : pid ∈ e1.matchedPairs
    · simp [hm]
    · simp [hm]
  · intro c hc
    rcases addNewCards_leftCards _ c hc with h | h
    · right
      have hpred := (List.mem_filter.mp h).2
      intro hcp
      rw [hcp] at hpred
      simp at hpred
    · left
      exact h

/-- **C7** — In one-to-many mode, when a validated right-side match
leaves `foundMatches < requiredMatches` after incrementing, neither
`correctAnswers` nor the combo changes (in particular the combo is not
reset), the left card stays on the board with its progress updated, and
only the matched right card is removed, replaced from the right
reservoir when it is non-empty; only when the incremented count reaches
`requiredMatches` does the handler count one completed correct answer,
raise the combo, mark the pair matched and take the left card off the
board. -/
theorem handleOneToManyMatch_partial_and_complete :
    ∀ (e : EngState) (pid : Nat) (rc : RightData) (ld : LeftData),
      e.leftCards.find? (fun c => c.pairId == pid) = some ld →
      (ld.currentMatches + 1 < ld.totalMatches →
        (handleOneToManyMatch e pid rc).correctAnswers = e.correctAnswers ∧
        (handleOneToManyMatch e pid rc).combo = e.combo ∧
        (handleOneToManyMatch e pid rc).leftCards.length = e.leftCards.length ∧
        (∃ ld', (handleOneToManyMatch e pid rc).leftCards.find?
            (fun c => c.pairId == pid) = some ld' ∧
          ld'.currentMatches = ld.currentMatches + 1 ∧
          ld'.matchedRightIds = ld.matchedRightIds ++ [rightDomId rc]) ∧
        (e.rightPool ≠ [] → ∃ nc ∈ e.rightPool,
          (handleOneToManyMatch e pid rc).rightCards =
            e.rightCards.filter (fun c => rightDomId c != rightDomId rc) ++ [nc])) ∧
      (ld.currentMatches + 1 = ld.totalMatches →
        (handleOneToManyMatch e pid rc).correctAnswers = e.correctAnswers + 1 ∧
        (handleOneToManyMatch e pid rc).combo = e.combo + 1 ∧
        pid ∈ (handleOneToManyMatch e pid rc).matchedPairs ∧
        ((∀ l ∈ e.leftPool, l.pairId ≠ pid) →
          ∀ c ∈ (handleOneToManyMatch e pid rc).leftCards, c.pairId ≠ pid)) := by
  intro e pid rc ld hfind
  have hred : handleOneToManyMatch e pid rc =
      if ld.totalMatches ≤ ld.currentMatches + 1 then
        otmComplete (otmProgress e pid (rightDomId rc)) pid (rightDomId rc)
      else
        otmPartial (otmProgress e pid (rightDomId rc)) (rightDomId rc) := by
    unfold handleOneToManyMatch
    rw [hfind]
  constructor
  · intro hlt
    rw [hred, if_neg (by omega)]
    obtain ⟨hc1, hc2, hc3, hc4⟩ :=
      otmPartial_spec (otmProgress e pid (rightDomId rc)) (rightDomId rc)
    refine ⟨hc1, hc2, ?_, ?_, ?_⟩
    · rw [hc3]
      exact updateFirstLeft_length e.leftCards pid _
    · rw [hc3]
      exact ⟨_, updateFirstLeft_find e.leftCards pid _ ld (fun x => rfl) hfind,
        rfl, rfl⟩
    · intro hpool
      obtain ⟨nc, hnc, heq⟩ := hc4 hpool
      exact ⟨nc, hnc, heq⟩
  · intro heqm
    rw [hred, if_pos (by omega)]
    obtain ⟨hc1, hc2, hc3, hc4⟩ :=
      otmComplete_spec (otmProgress e pid (rightDomId rc)) pid (rightDomId rc)
    refine ⟨hc1, hc2, hc3, ?_⟩
    intro hnp c hc
    rcases hc4 c hc with h | h
    · exact hnp c h
    · exact h

/-- Witness for C7: on the concrete one-to-many states, a partial match
(1 of 3) leaves `correctAnswers` and combo alone, while the completing
match (3 of 3) increments both. -/
theorem handleOneToManyMatch_partial_and_complete_witness :
    ((handleOneToManyMatch exEngState 1 { pairId := 1, idx := 0 }).correctAnswers =
        exEngState.correctAnswers ∧
      (handleOneToManyMatch exEngState 1 { pairId := 1, idx := 0 }).combo =
        exEngState.combo) ∧
    ((handleOneToManyMatch exEngStateAlmost 1
          { pairId := 1, idx := 0 }).correctAnswers =
        exEngStateAlmost.correctAnswers + 1 ∧
      (handleOneToManyMatch exEngStateAlmost 1 { pairId := 1, idx := 0 }).combo =
        exEngStateAlmost.combo + 1) := by
  constructor
  · have h := (handleOneToManyMatch_partial_and_complete exEngState 1
      { pairId := 1, idx := 0 }
      { pairId := 1, totalMatches := 3, currentMatches := 0, matchedRightIds := [] }
      (by decide)).1 (by decide)
    exact ⟨h.1, h.2.1⟩
  · have h := (handleOneToManyMatch_partial_and_complete exEngStateAlmost 1
      { pairId := 1, idx := 0 }
      { pairId := 1, totalMatches := 3, currentMatches := 2,
        matchedRightIds := [DomKey.composite Side.right 1 2,
                            DomKey.composite Side.right 1 3] }
      (by decide)).2 (by decide)
    exact ⟨h.1, h.2.1⟩

/-- The retry loop only permutes the right reservoir, provided every
reshuffle outcome is a permutation. -/
theorem ensureMatchGo_perm (sh : Nat → List Card → List Card)
    (hsh : ∀ k l, List.Perm (sh k l) l) (leftSlice : List Card) :
    ∀ (fuel attempts : Nat) (poolRight : List Card),
      List.Perm (ensureMatchGo sh leftSlice fuel attempts poolRight) poolRight := by
  intro fuel
  induction fuel with
  | zero => intro attempts poolRight; exact List.Perm.refl _
  | succ n ih =>
    intro attempts poolRight
    unfold ensureMatchGo
    by_cases h : checkAnyMatchExists leftSlice (poolRight.take CARDS_ON_BOARD) = true
    · rw [if_pos h]
    · rw [if_neg h]
      exact (ih (attempts + 1) (sh attempts poolRight)).trans (hsh attempts poolRight)

/-- The left cards built by the v4 initializer carry the catalog's pair
ids in order. -/
theorem buildCardsV4Go_left_ids (pairs : List SimplePair) :
    ∀ i : Nat,
      (((buildCardsV4Go i pairs).filter (fun c => c.side == Side.left)).map
        Card.pairId) = pairs.map SimplePair.id := by
  induction pairs with
  | nil => intro i; rfl
  | cons p ps ih =>
    intro i
    simp only [buildCardsV4Go, List.filter, List.map]
    simpa using ih (i + 1)

/-- The right cards built by the v4 initializer carry the catalog's pair
ids in order. -/
theorem buildCardsV4Go_right_ids (pairs : List SimplePair) :
    ∀ i : Nat,
      (((buildCardsV4Go i pairs).filter (fun c => c.side == Side.right)).map
        Card.pairId) = pairs.map SimplePair.id := by
  induction pairs with
  | nil => intro i; rfl
  | cons p ps ih =>
    intro i
    simp only [buildCardsV4Go, List.filter, List.map]
    simpa using ih (i + 1)

/-- Pigeonhole for the two leading board slices: when each side is a
permutation of the same duplicate-free id set of size 1..11, the two
6-element prefixes must share an id. -/
theorem take_slices_share (L R P : List Nat) (hP : P.Nodup)
    (hL : List.Perm L P) (hR : List.Perm R P)
    (h1 : 1 ≤ P.length) (h11 : P.length ≤ 11) :
    ∃ x, x ∈ L.take 6 ∧ x ∈ R.take 6 := by
  by_contra hcon
  push_neg at hcon
  have hLn : L.Nodup := hL.symm.nodup hP
  have hRn : R.Nodup := hR.symm.nodup hP
  have hA : (L.take 6).Nodup := (List.take_sublist 6 L).nodup hLn
  have hB : (R.take 6).Nodup := (List.take_sublist 6 R).nodup hRn
  have happ : ((L.take 6) ++ (R.take 6)).Nodup := by
    rw [List.nodup_append]
    exact ⟨hA, hB, fun a ha hb => hcon a ha hb⟩
  have hsub : (L.take 6) ++ (R.take 6) ⊆ P := by
    intro x hx
    rcases List.mem_append.mp hx with h | h
    · exact hL.subset (List.take_subset _ _ h)
    · exact hR.subset (List.take_subset _ _ h)
  have hlen := (List.subperm_of_subset happ hsub).length_le
  rw [List.length_append] at hlen
  have hLt : (L.take 6).length = min 6 L.length := by simp
  have hRt : (R.take 6).length = min 6 R.length := by simp
  have hLP : L.length = P.length := hL.length_eq
  have hRP : R.length = P.length := hR.length_eq
  omega

/-- A card that does not carry the vacated id survives the board-slot
replacement. -/
theorem replaceFirstById_mem_of_ne (cards : List Card) (oldId : Nat)
    (newCard : Card) (c : Card) (hc : c ∈ cards) (hne : c.id ≠ oldId) :
    c ∈ replaceFirstById cards oldId newCard := by
  induction cards with
  | nil => cases hc
  | cons d rest ih =>
    unfold replaceFirstById
    by_cases hd : d.id = oldId
    · rw [if_pos hd]
      rcases List.mem_cons.mp hc with h | h
      · exact absurd (h ▸ hd) hne
      · exact List.mem_cons_of_mem _ h
    · rw [if_neg hd]
      rcases List.mem_cons.mp hc with h | h
      · exact h ▸ List.mem_cons_self _ _
      · exact List.mem_cons_of_mem _ (ih h)

/-- When some board card carries the vacated id, the replacement card
lands on the board. -/
theorem replaceFirstById_mem_new (cards : List Card) (oldId : Nat)
    (newCard : Card) (hold : ∃ c ∈ cards, c.id = oldId) :
    newCard ∈ replaceFirstById cards oldId newCard := by
  induction cards with
  | nil => obtain ⟨c, hc, _⟩ := hold; cases hc
  | cons d rest ih =>
    unfold replaceFirstById
    by_cases hd : d.id = oldId
    · rw [if_pos hd]
      exact List.mem_cons_self _ _
    · rw [if_neg hd]
      obtain ⟨c, hc, hcid⟩ := hold
      rcases List.mem_cons.mp hc with h | h
      · exact absurd (h ▸ hcid) hd
      · exact List.mem_cons_of_mem _ (ih ⟨c, h, hcid⟩)

/-- The nested-loop match test succeeds exactly when a cross-side pair id
is shared. -/
theorem checkAnyMatchExists_iff (leftCards rightCards : List Card) :
    checkAnyMatchExists leftCards rightCards = true ↔
      ∃ l ∈ leftCards, ∃ r ∈ rightCards, l.pairId = r.pairId := by
  simp [checkAnyMatchExists, List.any_eq_true]

/-- What `findMatchingCard` returns: a reservoir card compatible with
some board card. -/
theorem findMatchingCard_some (poolCards boardCards : List Card) (nc : Card)
    (h : findMatchingCard poolCards boardCards = some nc) :
    nc ∈ poolCards ∧ ∃ b ∈ boardCards, nc.pairId = b.pairId := by
  refine ⟨List.mem_of_find?_eq_some h, ?_⟩
  have hp := List.find?_some h
  simpa [List.any_eq_true] using hp

/-- `leftStep` does not touch the master list, the right board or the
right reservoir. -/
theorem leftStep_preserves (m : GM) (oldId : Nat) :
    (leftStep m oldId).cards = m.cards ∧
    (leftStep m oldId).boardRight = m.boardRight ∧
    (leftStep m oldId).poolRight = m.poolRight := by
  unfold leftStep
  cases m.poolLeft <;> exact ⟨rfl, rfl, rfl⟩

/-- The right block of `getReplacements` re-establishes an active
cross-side match whenever the right reservoir is non-empty and either the
board minus the vacated slot still matches or the reservoir holds a
compatible card. -/
theorem rightStep_establishes (m : GM) (oldId : Nat)
    (hpool : m.poolRight ≠ [])
    (hactiveL : ∀ c ∈ m.boardLeft, c.state = CState.active)
    (hactiveR : ∀ c ∈ m.boardRight, c.id ≠ oldId → c.state = CState.active)
    (hold : ∃ c ∈ m.boardRight, c.id = oldId)
    (hcompat :
      checkAnyMatchExists m.boardLeft
          (m.boardRight.filter (fun c => c.id != oldId)) = true ∨
        (findMatchingCard m.poolRight m.boardLeft).isSome = true) :
    hasActiveMatch (rightStep m oldId).boardLeft
      (rightStep m oldId).boardRight := by
  cases hp : m.poolRight with
  | nil => exact absurd hp hpool
  | cons first rest =>
    by_cases hmatch : checkAnyMatchExists m.boardLeft
        (m.boardRight.filter (fun c => c.id != oldId)) = true
    · obtain ⟨l, hl, r, hr, hpid⟩ := (checkAnyMatchExists_iff _ _).mp hmatch
      have hrmem := (List.mem_filter.mp hr).1
      have hrne : r.id ≠ oldId := by
        have := (List.mem_filter.mp hr).2
        simpa using this
      have hrs : rightStep m oldId =
          { m with poolRight := rest,
                   boardRight := replaceFirstById m.boardRight oldId
                     { first with state := CState.active } } := by
        simp [rightStep, hp, hmatch]
      refine ⟨l, ?_, r, ?_, hpid, hactiveL l hl, hactiveR r hrmem hrne⟩
      · rw [hrs]; exact hl
      · rw [hrs]
        exact replaceFirstById_mem_of_ne m.boardRight oldId _ r hrmem hrne
    · rcases hcompat with hc | hc
      · exact absurd hc hmatch
      cases hf : findMatchingCard m.poolRight m.boardLeft with
      | none => rw [hf] at hc; simp at hc
      | some nc =>
        obtain ⟨hncpool, b, hb, hpid⟩ := findMatchingCard_some _ _ nc hf
        rw [hp] at hf
        have hrs : rightStep m oldId =
            { m with poolRight := (first :: rest).filter (fun c => c.id != nc.id),
                     boardRight := replaceFirstById m.boardRight oldId
                       { nc with state := CState.active } } := by
          simp [rightStep, hp, hmatch, hf]
        refine ⟨b, ?_, { nc with state := CState.active }, ?_, hpid.symm,
          hactiveL b hb, rfl⟩
        · rw [hrs]; exact hb
        · rw [hrs]
          exact replaceFirstById_mem_new m.boardRight oldId _ hold

/-- **C1 counterexample** — A reachable initializer run violates the
match-guarantee invariant while both reservoirs are non-empty: on a
12-pair catalog, with a shuffle execution that deals the right reservoir
rotated by 6 and returns every retry reshuffle unchanged (each outcome a
permutation, hence a possible `Math.random` draw), the bounded 100-retry
loop exhausts its attempts and the board comes up with no cross-side
match. -/
theorem initializeCardsV4_no_match_counterexample :
    (∀ l : List Card, List.Perm (l.rotate 6) l) ∧
    ¬ hasActiveMatch exBoard12.boardL exBoard12.boardR ∧
    exBoard12.poolL ≠ [] ∧ exBoard12.poolR ≠ [] := by
  refine ⟨fun l => List.rotate_perm l 6, ?_, ?_, ?_⟩ <;> decide

/-- **C1 (amended)** — The match-guarantee invariant holds (i) after the
v4 initializer whenever at most 11 pairs are selected, for every shuffle
execution (the 100-attempt retry loop can only fail when the two
6-prefixes can avoid each other, which needs at least 12 pairs), and (ii)
after a refill cycle of `getReplacements`, whenever the right reservoir
is non-empty and — as the code checks — the board minus the vacated slot
still matches or the reservoir holds a card compatible with the active
left board; outside these conditions the code proceeds with a best-effort
board, as the counterexample shows. -/
theorem match_guarantee_small_catalog_and_refill :
    (∀ (shL shR : List Card → List Card) (shE : Nat → List Card → List Card)
        (pairs : List SimplePair),
      (∀ l, List.Perm (shL l) l) → (∀ l, List.Perm (shR l) l) →
      (∀ k l, List.Perm (shE k l) l) →
      (pairs.map SimplePair.id).Nodup →
      1 ≤ pairs.length → pairs.length ≤ 11 →
      hasActiveMatch (initializeCardsV4 shL shR shE pairs).boardL
        (initializeCardsV4 shL shR shE pairs).boardR) ∧
    (∀ (m : GM) (cardId1 cardId2 : Nat) (c1 c2 : Card),
      findCard m.cards cardId1 = some c1 → findCard m.cards cardId2 = some c2 →
      c1.side = Side.left → c2.side = Side.right →
      m.poolRight ≠ [] →
      (∀ c ∈ (leftStep m cardId1).boardLeft, c.state = CState.active) →
      (∀ c ∈ m.boardRight, c.id ≠ cardId2 → c.state = CState.active) →
      (∃ c ∈ m.boardRight, c.id = cardId2) →
      (checkAnyMatchExists (leftStep m cardId1).boardLeft
          (m.boardRight.filter (fun c => c.id != cardId2)) = true ∨
        (findMatchingCard m.poolRight
          (leftStep m cardId1).boardLeft).isSome = true) →
      hasActiveMatch (getReplacements m cardId1 cardId2).boardLeft
        (getReplacements m cardId1 cardId2).boardRight) := by
  constructor
  · intro shL shR shE pairs hshL hshR hshE hnodup hge hle
    have hL : List.Perm
        ((shL ((buildCardsV4 pairs).filter (fun c => c.side == Side.left))).map
          Card.pairId)
        (pairs.map SimplePair.id) := by
      rw [← buildCardsV4Go_left_ids pairs 0]
      exact (hshL _).map Card.pairId
    have hR0 : List.Perm
        ((shR ((buildCardsV4 pairs).filter (fun c => c.side == Side.right))).map
          Card.pairId)
        (pairs.map SimplePair.id) := by
      rw [← buildCardsV4Go_right_ids pairs 0]
      exact (hshR _).map Card.pairId
    have hEperm := ensureMatchGo_perm shE hshE
      ((shL ((buildCardsV4 pairs).filter (fun c => c.side == Side.left))).take
        CARDS_ON_BOARD) 100 0
      (shR ((buildCardsV4 pairs).filter (fun c => c.side == Side.right)))
    have hR : List.Perm
        ((ensureMatchOnBoard shE
            (shL ((buildCardsV4 pairs).filter (fun c => c.side == Side.left)))
            (shR ((buildCardsV4 pairs).filter (fun c => c.side == Side.right)))).map
          Card.pairId)
        (pairs.map SimplePair.id) :=
      ((hEperm).map Card.pairId).trans hR0
    obtain ⟨x, hxL, hxR⟩ := take_slices_share _ _ (pairs.map SimplePair.id)
      (hnodup) hL hR (by simpa using hge) (by simpa using hle)
    rw [← List.map_take] at hxL hxR
    obtain ⟨lc, hlc, hlcx⟩ := List.mem_map.mp hxL
    obtain ⟨rc, hrc, hrcx⟩ := List.mem_map.mp hxR
    refine ⟨activate lc, ?_, activate rc, ?_, ?_, rfl, rfl⟩
    · exact List.mem_map_of_mem activate hlc
    · exact List.mem_map_of_mem activate hrc
    · show lc.pairId = rc.pairId
      rw [hlcx, hrcx]
  · intro m cardId1 cardId2 c1 c2 h1 h2 hs1 hs2 hpool hactL hactR hold hcompat
    have hgr : getReplacements m cardId1 cardId2 =
        rightStep (leftStep m cardId1) cardId2 := by
      unfold getReplacements
      rw [h1, h2]
      simp [hs1, hs2]
    rw [hgr]
    obtain ⟨hcards, hbr, hpr⟩ := leftStep_preserves m cardId1
    apply rightStep_establishes
    · rw [hpr]; exact hpool
    · exact hactL
    · rw [hbr]; exact hactR
    · rw [hbr]; exact hold
    · rw [hbr, hpr]; exact hcompat

/-- Witness for C1: the initializer guarantee on a concrete 3-pair
catalog with identity shuffles, and the refill guarantee on a concrete
mid-game state. -/
theorem match_guarantee_small_catalog_and_refill_witness :
    hasActiveMatch (initializeCardsV4 id id (fun _ l => l) exPairs3).boardL
      (initializeCardsV4 id id (fun _ l => l) exPairs3).boardR ∧
    hasActiveMatch (getReplacements exRefillGM 10 20).boardLeft
      (getReplacements exRefillGM 10 20).boardRight := by
  constructor
  · exact match_guarantee_small_catalog_and_refill.1 id id (fun _ l => l)
      exPairs3 (fun l => List.Perm.refl l) (fun l => List.Perm.refl l)
      (fun k l => List.Perm.refl l) (by decide) (by decide) (by decide)
  · exact match_guarantee_small_catalog_and_refill.2 exRefillGM 10 20
      { id := 10, pairId := 1, side := Side.left, state := CState.matched }
      { id := 20, pairId := 1, side := Side.right, state := CState.matched }
      (by decide) (by decide) (by decide) (by decide) (by decide) (by decide)
      (by decide) (by decide) (by decide)

end ItsAMatch
